import Mathlib

/-!
# Shallow embedding of the GSH property-map resolution pipeline

This file embeds the three JavaScript passes of the repository:

* `scrape_and_geocode.js` — initial scrape and geocode (its geocode client
  delays before every request, record construction in lines 89–158);
* the coordinate-fixing pass (`src/unnamed/part_000`) — selection of records
  for re-resolution (`needsUpdate`), abbreviation expansion, the candidate
  query list and the accept/reject loop;
* `add_zipcodes.js` — the postal-enrichment pass (`reverseGeocode` and the
  enrichment loop).

Numbers (JavaScript floats) are modelled as rationals: the external service
interface guarantees numeric-parseable coordinate strings, so `parseFloat`
yields an ordinary finite decimal.  `null`-able fields are `Option`s, and the
network (fetch + JSON parse + emptiness check) is an oracle parameter
`svc : String → Option (ℚ × ℚ)` (forward) resp. `rg : ℚ → ℚ → Option String`
(reverse), where `none` covers HTTP failure, thrown errors and empty result
lists.  External calls and pauses are additionally mirrored by explicit event
traces so that pacing behaviour is provable.
-/

/-- JavaScript truthiness of a nullable number: `null` and `0` are falsy.
(`NaN` is also falsy in JavaScript but has no rational counterpart; the
service interface guarantees parseable numbers.) -/
def jsTruthyNum : Option ℚ → Bool
  | none => false
  | some v => decide (v ≠ 0)

/-- JavaScript truthiness of a nullable string: `null` and `""` are falsy. -/
def jsTruthyStr : Option String → Bool
  | none => false
  | some s => decide (s ≠ "")

/-- `String.prototype.endsWith pat`: `pat` is a suffix of the string. -/
def strEndsWith (s pat : String) : Bool := decide (pat.toList <:+ s.toList)

/-- `String.prototype.includes pat`: `pat` occurs as a contiguous substring. -/
def strIncludes (s pat : String) : Bool := decide (pat.toList <:+: s.toList)

/-- `String.prototype.replace` with a plain-string pattern replaces only the
first occurrence of the pattern (list form, recursing over the subject). -/
def replaceFirstL (pat rep : List Char) : List Char → List Char
  | [] => if pat = [] then rep else []
  | c :: cs =>
    if pat <+: c :: cs then rep ++ (c :: cs).drop pat.length
    else c :: replaceFirstL pat rep cs

/-- `s.replace(pat, rep)` for a plain-string `pat` (first occurrence only). -/
def jsReplaceFirst (s pat rep : String) : String :=
  ⟨replaceFirstL pat.toList rep.toList s.toList⟩

/-- The static abbreviation table `STATE_MAP` of the coordinate-fixing pass,
in object-insertion order (the order `Object.entries` iterates). -/
def STATE_MAP : List (String × String) :=
  [("MI", "Michigan"), ("IN", "Indiana"), ("OH", "Ohio"), ("FL", "Florida"),
   ("MA", "Massachusetts"), ("MD", "Maryland"), ("USA", "USA")]

/-- Lines 22–27 of the coordinate-fixing pass: scan `STATE_MAP` in order,
and on the first entry whose abbreviation (preceded by a space) ends the
query, `replace` that space-prefixed abbreviation (first occurrence, as
JavaScript `replace` does) with the space-prefixed full name, then `break`. -/
def expandStateAbbrev (q : String) : String :=
  match STATE_MAP.find? (fun ab => strEndsWith q (" " ++ ab.1)) with
  | some (abbr, full) => jsReplaceFirst q (" " ++ abbr) (" " ++ full)
  | none => q

/-- `geocodeAddress` of the coordinate-fixing pass (lines 17–46): empty/null
query short-circuits to `{lat: null, lon: null}`; otherwise the query is
abbreviation-expanded and sent to the service; a parsed first result gives
both components, any failure or empty result gives both `null`. -/
def geocodeAddress (svc : String → Option (ℚ × ℚ)) (query : String) :
    Option ℚ × Option ℚ :=
  if query = "" then (none, none)
  else
    match svc (expandStateAbbrev query) with
    | some (la, lo) => (some la, some lo)
    | none => (none, none)

/-- `geocodeAddress` of `scrape_and_geocode.js` (lines 37–56): no empty-query
guard and no abbreviation expansion; both components from the first parsed
result, both `null` on failure or empty result. -/
def scrapeGeo (svc : String → Option (ℚ × ℚ)) (query : String) :
    Option ℚ × Option ℚ :=
  match svc query with
  | some (la, lo) => (some la, some lo)
  | none => (none, none)

/-- One property record, with the fields the pipeline reads and writes.
`lat`/`lon` mirror the JSON `lat`, `lon` fields (`none` = `null`), and
`zip_code` is `none` while the field is still absent. -/
structure Property where
  title : Option String
  url : String
  image : Option String
  description : Option String
  address : String
  location_field : Option String
  lat : Option ℚ
  lon : Option ℚ
  zip_code : Option String
deriving DecidableEq, Repr

/-- A record as produced by the scraper, used for concrete instances. -/
def baseProp : Property :=
  { title := some "The Meadows at Canton", url := "u", image := none,
    description := none, address := "Address Not Found", location_field := none,
    lat := none, lon := none, zip_code := none }

/-- Lines 58–70 of the coordinate-fixing pass: a record needs (re-)resolution
when `lat` or `lon` is `null`, or else when the stored address contains
`", MI"` and the stored latitude is below `41`. -/
def needsUpdate (p : Property) : Bool :=
  match p.lat, p.lon with
  | none, _ => true
  | some _, none => true
  | some la, some _ => strIncludes p.address ", MI" && decide (la < 41)

/-- Lines 74–86 of the coordinate-fixing pass: the ordered candidate query
list.  A truthy non-sentinel address contributes `address + ", USA"` and
(with a truthy title) `title + ", " + address + ", USA"`; a truthy title
always contributes the final `title + ", USA"`. -/
def buildQueries (p : Property) : List String :=
  (if p.address ≠ "" ∧ p.address ≠ "Address Not Found" then
      [p.address ++ ", USA"] ++
        (if jsTruthyStr p.title then
            [p.title.getD "" ++ ", " ++ p.address ++ ", USA"]
          else [])
    else []) ++
  (if jsTruthyStr p.title then [p.title.getD "" ++ ", USA"] else [])

/-- The candidate loop, lines 88–106: geocode each query in order; a truthy
latitude is a returned result; a returned result whose (unexpanded) query
contains `"Michigan"` with latitude below `41` is skipped (`continue`);
otherwise the result is accepted (`break`).  Returns the accepted result. -/
def tryQueries (svc : String → Option (ℚ × ℚ)) :
    List String → Option (Option ℚ × Option ℚ)
  | [] => none
  | q :: qs =>
    let coords := geocodeAddress svc q
    if jsTruthyNum coords.1 then
      if strIncludes q "Michigan" && decide (coords.1.getD 0 < 41) then
        tryQueries svc qs
      else some coords
    else tryQueries svc qs

/-- Lines 58–111: one property of the coordinate-fixing pass.  A selected
record gets its `lat`/`lon` overwritten by the first accepted result; with no
accepted result (or when not selected) the record is returned unchanged. -/
def resolveProperty (svc : String → Option (ℚ × ℚ)) (p : Property) : Property :=
  if needsUpdate p then
    match tryQueries svc (buildQueries p) with
    | some coords => { p with lat := coords.1, lon := coords.2 }
    | none => p
  else p

/-- The whole coordinate-fixing run: the sequential `for` loop over records. -/
def resolveRun (svc : String → Option (ℚ × ℚ)) : List Property → List Property
  | [] => []
  | p :: ps => resolveProperty svc p :: resolveRun svc ps

/-- `reverseGeocode` of `add_zipcodes.js` (lines 6–23): falsy latitude or
longitude short-circuits to `null` before any request; otherwise the service
is consulted and a truthy `postcode` field is returned, anything else
(failure, missing or empty postcode) gives `null`. -/
def reverseGeocode (rg : ℚ → ℚ → Option String) (lat lon : Option ℚ) :
    Option String :=
  if jsTruthyNum lat && jsTruthyNum lon then
    match rg (lat.getD 0) (lon.getD 0) with
    | some z => if z = "" then none else some z
    | none => none
  else none

/-- Lines 32–47 of `add_zipcodes.js`, one record: records with a truthy
`zip_code`, or with a falsy `lat` or `lon`, are skipped; otherwise a truthy
reverse-geocode result sets `zip_code` and appends `" " + zip` to `address`. -/
def enrichStep (rg : ℚ → ℚ → Option String) (p : Property) : Property :=
  if !jsTruthyStr p.zip_code && jsTruthyNum p.lat && jsTruthyNum p.lon then
    if jsTruthyStr (reverseGeocode rg p.lat p.lon) then
      { p with
        zip_code := reverseGeocode rg p.lat p.lon,
        address := p.address ++ " " ++ (reverseGeocode rg p.lat p.lon).getD "" }
    else p
  else p

/-- The whole postal-enrichment pass (the sequential `for` loop; each record
is visited once and only its own fields decide what happens to it). -/
def enrich (rg : ℚ → ℚ → Option String) (ps : List Property) : List Property :=
  ps.map (enrichStep rg)

/-- Removal of HTML numeric entities, line 118 of `scrape_and_geocode.js`:
the global regex `/&#\d+;/g` deletes every occurrence of `&#`, one or more
digits, `;`, scanning left to right (fuel = input length, always enough). -/
def stripEntitiesL : Nat → List Char → List Char
  | 0, l => l
  | _ + 1, [] => []
  | fuel + 1, '&' :: '#' :: rest =>
    let ds := rest.takeWhile Char.isDigit
    let rest2 := rest.drop ds.length
    if ds ≠ [] ∧ rest2.head? = some ';' then stripEntitiesL fuel rest2.tail
    else '&' :: stripEntitiesL fuel ('#' :: rest)
  | fuel + 1, c :: cs => c :: stripEntitiesL fuel cs

/-- `outputAddress.replace(/&#\d+;/g, "")`. -/
def stripEntities (s : String) : String :=
  ⟨stripEntitiesL s.toList.length s.toList⟩

/-- Lines 89–136 of `scrape_and_geocode.js`: the display address and the
final geocode query.  `location` is the merged result of the explicit-header
extraction and the description address-pattern fallback of lines 94–101 (the
extraction layer is an external collaborator).  Lines 103–107 and 120–125
compute query values that lines 129–136 unconditionally overwrite, so only
the final assignments appear; `none` is the `TypeError` of line 122 (a null
`title` dereferenced when no truthy location was extracted).  A truthy
location that is not the sentinel gets its HTML numeric entities removed; a
null title with such a location falls through to the location-only query; a
sentinel address always queries by title alone. -/
def scrapeQuery (title location : Option String) : Option (String × String) :=
  let locT := jsTruthyStr location
  let outputAddress1 : String :=
    if locT then location.getD "" else "Address Not Found"
  if outputAddress1 ≠ "Address Not Found" then
    let outputAddress2 := stripEntities outputAddress1
    let geocodeQuery :=
      if jsTruthyStr title ∧ outputAddress2 ≠ "Address Not Found" then
        title.getD "" ++ ", " ++ outputAddress2
      else if outputAddress2 ≠ "Address Not Found" then outputAddress2
      else title.getD ""
    some (outputAddress2, geocodeQuery)
  else
    match title with
    | none => none
    | some t => some ("Address Not Found", t)

/-- Lines 138–147 of `scrape_and_geocode.js`: a truthy query is geocoded;
when that yields a falsy latitude and a truthy location was extracted, the
location alone is retried; an empty query yields `{lat: null, lon: null}`. -/
def scrapeCoords (svc : String → Option (ℚ × ℚ)) (g : String)
    (location : Option String) (locT : Bool) : Option ℚ × Option ℚ :=
  if g ≠ "" then
    if jsTruthyNum (scrapeGeo svc g).1 = false ∧ locT = true then
      scrapeGeo svc (location.getD "")
    else scrapeGeo svc g
  else (none, none)

/-- Lines 89–158 of `scrape_and_geocode.js`: one record as pushed into the
output collection (or `none` when line 122 throws). -/
def scrapeRecord (svc : String → Option (ℚ × ℚ)) (title : Option String)
    (url : String) (image description location : Option String) :
    Option Property :=
  match scrapeQuery title location with
  | none => none
  | some (addr, g) =>
    let coords := scrapeCoords svc g location (jsTruthyStr location)
    some ⟨title, url, image, description, addr, location,
          coords.1, coords.2, none⟩

/-- Externally observable events: a forward-geocode request, a
reverse-geocode request, or an awaited pause (milliseconds). -/
inductive Event where
  | fwdCall : String → Event
  | revCall : ℚ → ℚ → Event
  | delay : Nat → Event
deriving DecidableEq, Repr

/-- Requests issued to the geocoding provider. -/
def isGeoCall : Event → Bool
  | Event.fwdCall _ => true
  | Event.revCall _ _ => true
  | Event.delay _ => false

/-- A trace respects pacing when no two provider requests are adjacent
(every pair of consecutive requests has a pause between them). -/
def pacedTrace : List Event → Bool
  | a :: b :: rest => !(isGeoCall a && isGeoCall b) && pacedTrace (b :: rest)
  | _ => true

/-- Trace of the scraper's `geocodeAddress` (lines 37–56): the client itself
awaits 1000 ms before issuing its request. -/
def scrapeGeoTrace (q : String) : List Event :=
  [Event.delay 1000, Event.fwdCall q]

/-- Trace of the coordinate-fixing pass's `geocodeAddress`: no internal
pause; an empty query issues no request, otherwise one request with the
expanded query. -/
def geoCallTrace (q : String) : List Event :=
  if q = "" then [] else [Event.fwdCall (expandStateAbbrev q)]

/-- Trace of the candidate loop, lines 88–106: the 1000 ms pause sits at the
bottom of the loop body, so it runs only when a candidate produced no usable
result — `continue` (suspicious result) and `break` (acceptance) skip it. -/
def tryQueriesTrace (svc : String → Option (ℚ × ℚ)) :
    List String → List Event
  | [] => []
  | q :: qs =>
    let coords := geocodeAddress svc q
    geoCallTrace q ++
      (if jsTruthyNum coords.1 then
        (if strIncludes q "Michigan" && decide (coords.1.getD 0 < 41) then
          tryQueriesTrace svc qs
        else [])
      else Event.delay 1000 :: tryQueriesTrace svc qs)

/-- Trace of `reverseGeocode`: the falsy-coordinate guard returns before the
request, otherwise exactly one request is issued (no internal pause). -/
def revCallTrace (lat lon : Option ℚ) : List Event :=
  if jsTruthyNum lat && jsTruthyNum lon then
    [Event.revCall (lat.getD 0) (lon.getD 0)]
  else []

/-- Trace of one record of the enrichment loop: skipped records produce no
events; a processed record produces its reverse-geocode request followed by
the 1000 ms pause at the bottom of the `if` block. -/
def enrichStepTrace (rg : ℚ → ℚ → Option String) (p : Property) : List Event :=
  if !jsTruthyStr p.zip_code && jsTruthyNum p.lat && jsTruthyNum p.lon then
    revCallTrace p.lat p.lon ++ [Event.delay 1000]
  else []

/-- Trace of the whole enrichment pass. -/
def enrichRunTrace (rg : ℚ → ℚ → Option String) : List Property → List Event
  | [] => []
  | p :: ps => enrichStepTrace rg p ++ enrichRunTrace rg ps

/-- A record with the tracked-region marker and plainly wrong coordinates
(the `Canton, MI` listing that resolved to Mississippi). -/
def suspiciousProp : Property :=
  { baseProp with
    address := "Canton, MI"
    lat := some 32
    lon := some (-90) }

/-- The same record with plausible Michigan coordinates (42.3, -83.4). -/
def plausibleProp : Property :=
  { baseProp with
    address := "Canton, MI"
    lat := some (mkRat 423 10)
    lon := some (mkRat (-834) 10) }

/-- C1: a record is selected for re-resolution iff its coordinates are
absent (a `null` component), or they are present, the stored address
contains the region marker `", MI"`, and the stored latitude is below the
region's plausibility floor `41`; in particular the marker with latitude
`32.0` is selected and the marker with latitude `42.3` is not. -/
theorem claim1_needsUpdate_selection :
    (∀ p : Property, needsUpdate p = true ↔
        ((p.lat = none ∨ p.lon = none) ∨
          ∃ la lo, p.lat = some la ∧ p.lon = some lo ∧
            strIncludes p.address ", MI" = true ∧ la < 41)) ∧
    needsUpdate suspiciousProp = true ∧
    needsUpdate plausibleProp = false := by
  refine ⟨fun p => ?_, by decide, by decide⟩
  cases hla : p.lat with
  | none => simp [needsUpdate, hla]
  | some la =>
    cases hlo : p.lon with
    | none => simp [needsUpdate, hla, hlo]
    | some lo => simp [needsUpdate, hla, hlo]

/-- Two patterns, neither a suffix of the other, cannot both end a string:
used to show at most one abbreviation matches the end of a query. -/
theorem strEndsWith_excl {q : String} (a b : String)
    (hlen : a.toList.length ≤ b.toList.length)
    (hnab : ¬ a.toList <:+ b.toList)
    (hb : strEndsWith q b = true) : strEndsWith q a = false := by
  rw [strEndsWith, decide_eq_true_iff] at hb
  rw [strEndsWith, decide_eq_false_iff_not]
  exact fun ha => hnab (List.suffix_of_suffix_length_le ha hb hlen)

/-- C2 counterexample: on `"a MI b, MI"` (trailing occurrence of the mapped
abbreviation, plus an earlier mid-string occurrence) the expansion rewrites
the mid-string occurrence and leaves the trailing one untouched, contrary to
the claim that exactly the trailing occurrence is rewritten. -/
theorem claim2_counterexample :
    expandStateAbbrev "a MI b, MI" = "a Michigan b, MI" ∧
      expandStateAbbrev "a MI b, MI" ≠ "a MI b, Michigan" :=
  ⟨by decide, by decide⟩

/-- C2 (amended): expansion is applied iff a table abbreviation occurs at
the end of the string preceded by a space, and it rewrites the first
occurrence of the space-preceded abbreviation (the trailing one whenever the
abbreviation occurs only once); queries ending in no mapped abbreviation
pass through unchanged. -/
theorem claim2_expansion_first_occurrence :
    (∀ q : String,
        (∀ ab ∈ STATE_MAP, strEndsWith q (" " ++ ab.1) = false) →
          expandStateAbbrev q = q) ∧
    (∀ q : String, ∀ ab ∈ STATE_MAP, strEndsWith q (" " ++ ab.1) = true →
        expandStateAbbrev q = jsReplaceFirst q (" " ++ ab.1) (" " ++ ab.2)) := by
  constructor
  · intro q h
    have hnone : STATE_MAP.find? (fun ab => strEndsWith q (" " ++ ab.1)) = none := by
      rw [List.find?_eq_none]
      intro x hx
      simp [h x hx]
    rw [expandStateAbbrev, hnone]
  · intro q ab hab hend
    have excl : ∀ a b : String, a.toList.length ≤ b.toList.length →
        ¬ a.toList <:+ b.toList → strEndsWith q b = true → strEndsWith q a = false :=
      fun a b h1 h2 h3 => strEndsWith_excl a b h1 h2 h3
    simp only [STATE_MAP, List.mem_cons, List.not_mem_nil, or_false] at hab
    rcases hab with rfl | rfl | rfl | rfl | rfl | rfl | rfl
    · have h0 : strEndsWith q " MI" = true := hend
      simp [expandStateAbbrev, STATE_MAP, List.find?, h0]
    · have h0 : strEndsWith q " IN" = true := hend
      have e1 : strEndsWith q " MI" = false := excl " MI" " IN" (by decide) (by decide) h0
      simp [expandStateAbbrev, STATE_MAP, List.find?, h0, e1]
    · have h0 : strEndsWith q " OH" = true := hend
      have e1 : strEndsWith q " MI" = false := excl " MI" " OH" (by decide) (by decide) h0
      have e2 : strEndsWith q " IN" = false := excl " IN" " OH" (by decide) (by decide) h0
      simp [expandStateAbbrev, STATE_MAP, List.find?, h0, e1, e2]
    · have h0 : strEndsWith q " FL" = true := hend
      have e1 : strEndsWith q " MI" = false := excl " MI" " FL" (by decide) (by decide) h0
      have e2 : strEndsWith q " IN" = false := excl " IN" " FL" (by decide) (by decide) h0
      have e3 : strEndsWith q " OH" = false := excl " OH" " FL" (by decide) (by decide) h0
      simp [expandStateAbbrev, STATE_MAP, List.find?, h0, e1, e2, e3]
    · have h0 : strEndsWith q " MA" = true := hend
      have e1 : strEndsWith q " MI" = false := excl " MI" " MA" (by decide) (by decide) h0
      have e2 : strEndsWith q " IN" = false := excl " IN" " MA" (by decide) (by decide) h0
      have e3 : strEndsWith q " OH" = false := excl " OH" " MA" (by decide) (by decide) h0
      have e4 : strEndsWith q " FL" = false := excl " FL" " MA" (by decide) (by decide) h0
      simp [expandStateAbbrev, STATE_MAP, List.find?, h0, e1, e2, e3, e4]
    · have h0 : strEndsWith q " MD" = true := hend
      have e1 : strEndsWith q " MI" = false := excl " MI" " MD" (by decide) (by decide) h0
      have e2 : strEndsWith q " IN" = false := excl " IN" " MD" (by decide) (by decide) h0
      have e3 : strEndsWith q " OH" = false := excl " OH" " MD" (by decide) (by decide) h0
      have e4 : strEndsWith q " FL" = false := excl " FL" " MD" (by decide) (by decide) h0
      have e5 : strEndsWith q " MA" = false := excl " MA" " MD" (by decide) (by decide) h0
      simp [expandStateAbbrev, STATE_MAP, List.find?, h0, e1, e2, e3, e4, e5]
    · have h0 : strEndsWith q " USA" = true := hend
      have e1 : strEndsWith q " MI" = false := excl " MI" " USA" (by decide) (by decide) h0
      have e2 : strEndsWith q " IN" = false := excl " IN" " USA" (by decide) (by decide) h0
      have e3 : strEndsWith q " OH" = false := excl " OH" " USA" (by decide) (by decide) h0
      have e4 : strEndsWith q " FL" = false := excl " FL" " USA" (by decide) (by decide) h0
      have e5 : strEndsWith q " MA" = false := excl " MA" " USA" (by decide) (by decide) h0
      have e6 : strEndsWith q " MD" = false := excl " MD" " USA" (by decide) (by decide) h0
      simp [expandStateAbbrev, STATE_MAP, List.find?, h0, e1, e2, e3, e4, e5, e6]

/-- Witness for the amended C2 at the concrete query `"Canton, MI"`. -/
theorem claim2_witness :
    expandStateAbbrev "Canton, MI" =
      jsReplaceFirst "Canton, MI" (" " ++ "MI") (" " ++ "Michigan") :=
  claim2_expansion_first_occurrence.2 "Canton, MI" ("MI", "Michigan")
    (by decide) (by decide)

/-- C3: per candidate in order, a returned (truthy-latitude) result whose
query contains `"Michigan"` with latitude below `41` is skipped and the loop
proceeds to the next candidate; any other returned result is accepted first
and overwrites the record's coordinates; concretely, latitude `32` is
rejected and latitude `42.3` is accepted. -/
theorem claim3_candidate_loop :
    (∀ (svc : String → Option (ℚ × ℚ)) (q : String) (qs : List String),
        jsTruthyNum (geocodeAddress svc q).1 = true →
        strIncludes q "Michigan" = true →
        (geocodeAddress svc q).1.getD 0 < 41 →
        tryQueries svc (q :: qs) = tryQueries svc qs) ∧
    (∀ (svc : String → Option (ℚ × ℚ)) (q : String) (qs : List String),
        jsTruthyNum (geocodeAddress svc q).1 = true →
        (strIncludes q "Michigan" &&
            decide ((geocodeAddress svc q).1.getD 0 < 41)) = false →
        tryQueries svc (q :: qs) = some (geocodeAddress svc q)) ∧
    (∀ (svc : String → Option (ℚ × ℚ)) (p : Property) (c : Option ℚ × Option ℚ),
        needsUpdate p = true → tryQueries svc (buildQueries p) = some c →
        resolveProperty svc p = { p with lat := c.1, lon := c.2 }) ∧
    tryQueries (fun _ => some (32, -90)) ["x Michigan"] = none ∧
    tryQueries (fun _ => some (mkRat 423 10, mkRat (-834) 10)) ["x Michigan"] =
      some (some (mkRat 423 10), some (mkRat (-834) 10)) := by
  refine ⟨?_, ?_, ?_, by decide, by decide⟩
  · intro svc q qs h1 h2 h3
    simp [tryQueries, h1, h2, h3]
  · intro svc q qs h1 h2
    simp only [tryQueries, h1, if_true]
    simp [h2]
  · intro svc p c hn ht
    simp [resolveProperty, hn, ht]

/-- Witness for C3: the suspicious first candidate is skipped and the loop
continues with the remaining candidates. -/
theorem claim3_witness :
    tryQueries (fun _ => some ((32 : ℚ), (-90 : ℚ))) ["x Michigan", "y"] =
      tryQueries (fun _ => some ((32 : ℚ), (-90 : ℚ))) ["y"] :=
  claim3_candidate_loop.1 (fun _ => some ((32 : ℚ), (-90 : ℚ)))
    "x Michigan" ["y"] (by decide) (by decide) (by decide)

/-- The coordinate-fixing pass's client returns both components or neither. -/
theorem geocodeAddress_shape (svc : String → Option (ℚ × ℚ)) (q : String) :
    geocodeAddress svc q = (none, none) ∨
      ∃ a b, geocodeAddress svc q = (some a, some b) := by
  rw [geocodeAddress]
  by_cases h : q = ""
  · simp [h]
  · simp only [h, if_false]
    rcases svc (expandStateAbbrev q) with _ | ⟨a, b⟩
    · exact Or.inl rfl
    · exact Or.inr ⟨a, b, rfl⟩

/-- An accepted candidate result always has both components present. -/
theorem tryQueries_some {svc : String → Option (ℚ × ℚ)} :
    ∀ {qs : List String} {c : Option ℚ × Option ℚ},
      tryQueries svc qs = some c →
        (∃ a, c.1 = some a) ∧ (∃ b, c.2 = some b) := by
  intro qs
  induction qs with
  | nil => intro c h; simp [tryQueries] at h
  | cons q qs ih =>
    intro c h
    rw [tryQueries] at h
    by_cases h1 : jsTruthyNum (geocodeAddress svc q).1 = true
    · simp only [h1, if_true] at h
      by_cases h2 : (strIncludes q "Michigan" &&
          decide ((geocodeAddress svc q).1.getD 0 < 41)) = true
      · simp only [h2, if_true] at h
        exact ih h
      · simp only [Bool.not_eq_true] at h2
        simp only [h2, Bool.false_eq_true, if_false, Option.some.injEq] at h
        rcases geocodeAddress_shape svc q with hs | ⟨a, b, hs⟩
        · rw [hs] at h1; simp [jsTruthyNum] at h1
        · subst h
          rw [hs]
          exact ⟨⟨a, rfl⟩, ⟨b, rfl⟩⟩
    · simp only [Bool.not_eq_true] at h1
      simp only [h1, Bool.false_eq_true, if_false] at h
      exact ih h

/-- C4: when the candidate loop accepts nothing the record is returned with
exactly its entry coordinates (in particular a present pair is never cleared
to `null`), and the run maps over all records, continuing past failures. -/
theorem claim4_failure_keeps_entry_coordinates :
    (∀ (svc : String → Option (ℚ × ℚ)) (p : Property),
        tryQueries svc (buildQueries p) = none → resolveProperty svc p = p) ∧
    (∀ (svc : String → Option (ℚ × ℚ)) (p : Property),
        p.lat ≠ none → p.lon ≠ none →
          (resolveProperty svc p).lat ≠ none ∧
            (resolveProperty svc p).lon ≠ none) ∧
    (∀ (svc : String → Option (ℚ × ℚ)) (ps : List Property),
        resolveRun svc ps = ps.map (resolveProperty svc)) := by
  refine ⟨?_, ?_, ?_⟩
  · intro svc p h
    rw [resolveProperty]
    by_cases hn : needsUpdate p = true
    · simp [hn, h]
    · simp only [Bool.not_eq_true] at hn
      simp [hn]
  · intro svc p hla hlo
    rw [resolveProperty]
    by_cases hn : needsUpdate p = true
    · simp only [hn, if_true]
      cases ht : tryQueries svc (buildQueries p) with
      | none => exact ⟨hla, hlo⟩
      | some c =>
        obtain ⟨⟨a, ha⟩, ⟨b, hb⟩⟩ := tryQueries_some ht
        simp [ha, hb]
    · simp only [Bool.not_eq_true] at hn
      simp [hn, hla, hlo]
  · intro svc ps
    induction ps with
    | nil => rfl
    | cons p ps ih => simp [resolveRun, ih]

/-- Witness for C4: a service that never answers leaves the sample record
untouched. -/
theorem claim4_witness :
    resolveProperty (fun _ => none) baseProp = baseProp :=
  claim4_failure_keeps_entry_coordinates.1 (fun _ => none) baseProp (by decide)

/-- C5 counterexample: in the re-resolution candidate loop the pause sits at
the bottom of the loop body, and rejecting a suspicious result (`continue`)
skips it, so the next forward request is issued immediately: this concrete
run's trace is two adjacent provider requests with no pause between them. -/
theorem claim5_counterexample :
    tryQueriesTrace
        (fun s => if s = "a Michigan" then some ((32 : ℚ), (-90 : ℚ))
          else some ((42 : ℚ), (-83 : ℚ)))
        ["a Michigan", "b"] =
      [Event.fwdCall "a Michigan", Event.fwdCall "b"] ∧
    pacedTrace
        (tryQueriesTrace
          (fun s => if s = "a Michigan" then some ((32 : ℚ), (-90 : ℚ))
            else some ((42 : ℚ), (-83 : ℚ)))
          ["a Michigan", "b"]) = false :=
  ⟨by decide, by decide⟩

/-- A pause never forms an adjacent request pair with what follows it. -/
theorem pacedTrace_delay_cons (n : Nat) (rest : List Event) :
    pacedTrace (Event.delay n :: rest) = pacedTrace rest := by
  cases rest <;> simp [pacedTrace, isGeoCall]

/-- A request followed by a pause is paced iff the rest is. -/
theorem pacedTrace_rev_delay (la lo : ℚ) (n : Nat) (rest : List Event) :
    pacedTrace (Event.revCall la lo :: Event.delay n :: rest) =
      pacedTrace rest := by
  rw [pacedTrace, pacedTrace_delay_cons]
  simp [isGeoCall]

/-- A record of the enrichment loop contributes either nothing to the trace
or exactly one request followed by the pause. -/
theorem enrichStepTrace_shape (rg : ℚ → ℚ → Option String) (p : Property) :
    enrichStepTrace rg p = [] ∨
      ∃ la lo, enrichStepTrace rg p =
        [Event.revCall la lo, Event.delay 1000] := by
  rw [enrichStepTrace]
  by_cases h : (!jsTruthyStr p.zip_code && jsTruthyNum p.lat &&
      jsTruthyNum p.lon) = true
  · have h2 : jsTruthyNum p.lat = true ∧ jsTruthyNum p.lon = true := by
      simp only [Bool.and_eq_true] at h
      exact ⟨h.1.2, h.2⟩
    right
    refine ⟨p.lat.getD 0, p.lon.getD 0, ?_⟩
    rw [if_pos h, revCallTrace]
    simp [h2.1, h2.2]
  · simp only [Bool.not_eq_true] at h
    simp [h]

/-- C5 (amended): the scraper's own geocode client pauses before each of its
requests; the postal-enrichment loop pauses after every attempt, so no two
of its requests are ever adjacent; but the re-resolution candidate loop
pauses only after a candidate that yielded no usable result, so a rejected
suspicious result (or an acceptance) lets the next request go out with no
pause — pacing there is the caller's and is not airtight. -/
theorem claim5_pacing_amended :
    (∀ q : String, scrapeGeoTrace q = [Event.delay 1000, Event.fwdCall q]) ∧
    (∀ (rg : ℚ → ℚ → Option String) (ps : List Property),
        pacedTrace (enrichRunTrace rg ps) = true) ∧
    (∀ (svc : String → Option (ℚ × ℚ)) (q : String) (qs : List String),
        jsTruthyNum (geocodeAddress svc q).1 = false →
        tryQueriesTrace svc (q :: qs) =
          geoCallTrace q ++ Event.delay 1000 :: tryQueriesTrace svc qs) := by
  refine ⟨fun q => rfl, ?_, ?_⟩
  · intro rg ps
    induction ps with
    | nil => rfl
    | cons p ps ih =>
      rw [enrichRunTrace]
      rcases enrichStepTrace_shape rg p with h | ⟨la, lo, h⟩
      · rw [h, List.nil_append]
        exact ih
      · rw [h, List.cons_append, List.cons_append, List.nil_append,
          pacedTrace_rev_delay]
        exact ih
  · intro svc q qs h
    rw [tryQueriesTrace]
    simp [h]

/-- Witness for the amended C5: a no-result candidate is followed by the
pause before the (empty) remainder of the loop. -/
theorem claim5_witness :
    tryQueriesTrace (fun _ => none) ["b"] =
      geoCallTrace "b" ++ Event.delay 1000 :: tryQueriesTrace (fun _ => none) [] :=
  claim5_pacing_amended.2.2 (fun _ => none) "b" [] (by decide)

/-- The scraper's geocode client returns both components or neither. -/
theorem scrapeGeo_consistent (svc : String → Option (ℚ × ℚ)) (q : String) :
    (scrapeGeo svc q).1.isSome = (scrapeGeo svc q).2.isSome := by
  cases hs : svc q with
  | none => simp [scrapeGeo, hs]
  | some ab =>
    obtain ⟨a, b⟩ := ab
    simp [scrapeGeo, hs]

/-- The scraper's coordinate choice (query result or retry or both-null)
always has both components or neither. -/
theorem scrapeCoords_consistent (svc : String → Option (ℚ × ℚ)) (g : String)
    (location : Option String) (locT : Bool) :
    (scrapeCoords svc g location locT).1.isSome =
      (scrapeCoords svc g location locT).2.isSome := by
  rw [scrapeCoords]
  split
  · split
    · exact scrapeGeo_consistent svc (location.getD "")
    · exact scrapeGeo_consistent svc g
  · rfl

/-- The coordinate pair of a record is fully present or fully absent. -/
def coordsConsistent (p : Property) : Prop := p.lat.isSome = p.lon.isSome

/-- C6: every pipeline operation keeps the coordinate pair all-or-nothing —
the scraper's client returns both components or neither, scraped records are
created consistent, the re-resolution pass preserves consistency, and the
enrichment pass never touches `lat`/`lon`.  (Numbers are rationals here:
the service interface guarantees numeric-parseable coordinate strings, so
no `NaN` arises.) -/
theorem claim6_coordinates_all_or_nothing :
    (∀ (svc : String → Option (ℚ × ℚ)) (q : String),
        (scrapeGeo svc q).1.isSome = (scrapeGeo svc q).2.isSome) ∧
    (∀ (svc : String → Option (ℚ × ℚ)) (title : Option String) (url : String)
        (image description location : Option String) (r : Property),
        scrapeRecord svc title url image description location = some r →
        coordsConsistent r) ∧
    (∀ (svc : String → Option (ℚ × ℚ)) (p : Property),
        coordsConsistent p → coordsConsistent (resolveProperty svc p)) ∧
    (∀ (rg : ℚ → ℚ → Option String) (p : Property),
        (enrichStep rg p).lat = p.lat ∧ (enrichStep rg p).lon = p.lon) := by
  refine ⟨scrapeGeo_consistent, ?_, ?_, ?_⟩
  · intro svc title url image description location r h
    rw [scrapeRecord] at h
    cases hq : scrapeQuery title location with
    | none => rw [hq] at h; exact absurd h (by simp)
    | some ag =>
      obtain ⟨addr, g⟩ := ag
      rw [hq] at h
      simp only [Option.some.injEq] at h
      subst h
      exact scrapeCoords_consistent svc g location (jsTruthyStr location)
  · intro svc p h
    rw [resolveProperty]
    by_cases hn : needsUpdate p = true
    · rw [if_pos hn]
      cases ht : tryQueries svc (buildQueries p) with
      | none => exact h
      | some c =>
        obtain ⟨⟨a, ha⟩, ⟨b, hb⟩⟩ := tryQueries_some ht
        simp [coordsConsistent, ha, hb]
    · simp only [Bool.not_eq_true] at hn
      simp only [hn, Bool.false_eq_true, if_false]
      exact h
  · intro rg p
    rw [enrichStep]
    split
    · split
      · exact ⟨rfl, rfl⟩
      · exact ⟨rfl, rfl⟩
    · exact ⟨rfl, rfl⟩

/-- Witness for C6: consistency is preserved on the sample record. -/
theorem claim6_witness :
    coordsConsistent (resolveProperty (fun _ => none) baseProp) :=
  claim6_coordinates_all_or_nothing.2.2.1 (fun _ => none) baseProp rfl

/-- A string is empty exactly when its length is zero. -/
theorem strLength_zero_iff (s : String) : s.length = 0 ↔ s = "" := by
  cases s with
  | mk data => cases data <;> simp [String.length, String.ext_iff]

/-- Appending a non-empty string never yields the empty string. -/
theorem append_ne_empty_right (a b : String) (hb : b ≠ "") : a ++ b ≠ "" := by
  intro h
  apply hb
  have hlen := congrArg String.length h
  rw [String.length_append] at hlen
  rw [← strLength_zero_iff]
  have : ("" : String).length = 0 := rfl
  omega

/-- Right cancellation for string concatenation. -/
theorem str_append_right_cancel {a b c : String} (h : a ++ c = b ++ c) :
    a = b := by
  have hd := congrArg String.data h
  rw [String.data_append, String.data_append] at hd
  exact String.ext (List.append_left_inj c.data |>.mp hd)

/-- Strings of different lengths differ. -/
theorem str_ne_of_length_ne {a b : String} (h : a.length ≠ b.length) :
    a ≠ b :=
  fun e => h (congrArg String.length e)

/-- The record exhibiting C7's failure: title and address both `"Canton"`. -/
def cantonProp : Property :=
  { baseProp with title := some "Canton", address := "Canton" }

/-- C7 counterexample: for a record with a non-sentinel location string and
a title, the first candidate query is `address + ", USA"`, not
`title + ", " + location`, and the list is not duplicate-free (when title
and address coincide the first and last entries are equal). -/
theorem claim7_counterexample :
    buildQueries cantonProp =
        ["Canton, USA", "Canton, Canton, USA", "Canton, USA"] ∧
      (buildQueries cantonProp).head? ≠ some ("Canton" ++ ", " ++ "Canton") ∧
      ¬ (buildQueries cantonProp).Nodup :=
  ⟨by decide, by decide, by decide⟩

/-- C7 (amended): for every record with a truthy non-sentinel address and a
truthy title the candidate list is exactly `address + ", USA"`, then
`title + ", " + address + ", USA"`, then the coarse fallback
`title + ", USA"`; every entry is non-empty, the list terminates in the
title-plus-country fallback, and the entries are pairwise distinct whenever
the title differs from the address. -/
theorem claim7_query_list (t addr : String) (p : Property)
    (ht : t ≠ "") (ha : addr ≠ "") (hs : addr ≠ "Address Not Found")
    (hpt : p.title = some t) (hpa : p.address = addr) :
    buildQueries p =
        [addr ++ ", USA", t ++ ", " ++ addr ++ ", USA", t ++ ", USA"] ∧
      (∀ q ∈ buildQueries p, q ≠ "") ∧
      (buildQueries p).getLast? = some (t ++ ", USA") ∧
      (t ≠ addr → (buildQueries p).Nodup) := by
  have hq : buildQueries p =
      [addr ++ ", USA", t ++ ", " ++ addr ++ ", USA", t ++ ", USA"] := by
    simp [buildQueries, hpt, hpa, ha, hs, jsTruthyStr, ht]
  have husa : (", USA" : String).length = 5 := rfl
  have hcomma : (", " : String).length = 2 := rfl
  have htl : t.length ≠ 0 := fun h0 => ht ((strLength_zero_iff t).mp h0)
  have hal : addr.length ≠ 0 := fun h0 => ha ((strLength_zero_iff addr).mp h0)
  refine ⟨hq, ?_, ?_, ?_⟩
  · rw [hq]
    intro x hx
    rcases List.mem_cons.mp hx with rfl | hx
    · exact append_ne_empty_right _ _ (by decide)
    rcases List.mem_cons.mp hx with rfl | hx
    · exact append_ne_empty_right _ _ (by decide)
    rcases List.mem_cons.mp hx with rfl | hx
    · exact append_ne_empty_right _ _ (by decide)
    · exact absurd hx (List.not_mem_nil x)
  · rw [hq]
    rfl
  · intro hta
    rw [hq]
    have l1 : addr ++ ", USA" ≠ t ++ ", " ++ addr ++ ", USA" := by
      apply str_ne_of_length_ne
      simp only [String.length_append, husa, hcomma]
      omega
    have l2 : addr ++ ", USA" ≠ t ++ ", USA" := by
      intro e
      exact hta (str_append_right_cancel e).symm
    have l3 : t ++ ", " ++ addr ++ ", USA" ≠ t ++ ", USA" := by
      apply str_ne_of_length_ne
      simp only [String.length_append, husa, hcomma]
      omega
    simp [List.nodup_cons, l1, l2, l3]

/-- Witness for the amended C7 on a concrete record. -/
theorem claim7_witness :
    buildQueries { baseProp with title := some "T", address := "A" } =
        ["A, USA", "T, A, USA", "T, USA"] ∧
      (∀ q ∈ buildQueries { baseProp with title := some "T", address := "A" },
          q ≠ "") ∧
      (buildQueries { baseProp with title := some "T", address := "A" }).getLast? =
        some ("T" ++ ", USA") ∧
      ("T" ≠ "A" →
        (buildQueries { baseProp with title := some "T", address := "A" }).Nodup) := by
  have h := claim7_query_list "T" "A"
    { baseProp with title := some "T", address := "A" }
    (by decide) (by decide) (by decide) rfl rfl
  exact ⟨by decide, h.2.1, h.2.2.1, h.2.2.2⟩

/-- Applying the enrichment step twice is the same as applying it once. -/
theorem enrichStep_idem (rg : ℚ → ℚ → Option String) (p : Property) :
    enrichStep rg (enrichStep rg p) = enrichStep rg p := by
  by_cases hc : (!jsTruthyStr p.zip_code && jsTruthyNum p.lat &&
      jsTruthyNum p.lon) = true
  · by_cases hz : jsTruthyStr (reverseGeocode rg p.lat p.lon) = true
    · have h1 : enrichStep rg p =
          { p with
            zip_code := reverseGeocode rg p.lat p.lon,
            address := p.address ++ " " ++
              (reverseGeocode rg p.lat p.lon).getD "" } := by
        rw [enrichStep, if_pos hc, if_pos hz]
      rw [h1, enrichStep]
      simp [hz]
    · have h1 : enrichStep rg p = p := by
        rw [enrichStep, if_pos hc, if_neg hz]
      rw [h1, h1]
  · have h1 : enrichStep rg p = p := by
      rw [enrichStep, if_neg hc]
    rw [h1, h1]

/-- C8: a record with a truthy postal code is skipped entirely (unchanged,
and no request is issued for it), and the whole enrichment pass is
idempotent: a second run over the output of a first changes nothing. -/
theorem claim8_enrichment_idempotent :
    (∀ (rg : ℚ → ℚ → Option String) (p : Property),
        jsTruthyStr p.zip_code = true →
          enrichStep rg p = p ∧ enrichStepTrace rg p = []) ∧
    (∀ (rg : ℚ → ℚ → Option String) (ps : List Property),
        enrich rg (enrich rg ps) = enrich rg ps) := by
  constructor
  · intro rg p h
    constructor
    · rw [enrichStep]
      simp [h]
    · rw [enrichStepTrace]
      simp [h]
  · intro rg ps
    simp only [enrich, List.map_map]
    apply List.map_congr_left
    intro p _
    exact enrichStep_idem rg p

/-- The C8 sample record: postal code already present. -/
def zippedProp : Property := { baseProp with zip_code := some "48188" }

/-- Witness for C8: a record with a postal code set passes through. -/
theorem claim8_witness :
    enrichStep (fun _ _ => some "z") zippedProp = zippedProp ∧
      enrichStepTrace (fun _ _ => some "z") zippedProp = [] :=
  claim8_enrichment_idempotent.1 (fun _ _ => some "z") zippedProp (by decide)

/-- C9: a falsy latitude or longitude (null, or the number 0) makes
`reverseGeocode` itself return absent while issuing no request, and makes
the enrichment loop skip the record entirely even though a coordinate pair
may be present. -/
theorem claim9_falsy_coordinates_skip :
    (∀ (rg : ℚ → ℚ → Option String) (lat lon : Option ℚ),
        jsTruthyNum lat = false ∨ jsTruthyNum lon = false →
          reverseGeocode rg lat lon = none ∧ revCallTrace lat lon = []) ∧
    (∀ (rg : ℚ → ℚ → Option String) (p : Property),
        jsTruthyNum p.lat = false ∨ jsTruthyNum p.lon = false →
          enrichStep rg p = p ∧ enrichStepTrace rg p = []) := by
  constructor
  · intro rg lat lon h
    have hc : (jsTruthyNum lat && jsTruthyNum lon) = false := by
      rcases h with h | h <;> simp [h]
    exact ⟨by rw [reverseGeocode]; simp [hc],
           by rw [revCallTrace]; simp [hc]⟩
  · intro rg p h
    have hc : (!jsTruthyStr p.zip_code && jsTruthyNum p.lat &&
        jsTruthyNum p.lon) = false := by
      rcases h with h | h <;> simp [h]
    exact ⟨by rw [enrichStep]; simp [hc],
           by rw [enrichStepTrace]; simp [hc]⟩

/-- Witness for C9 at latitude `0` (present but falsy). -/
theorem claim9_witness :
    reverseGeocode (fun _ _ => some "z") (some 0) (some 5) = none ∧
      revCallTrace (some 0) (some 5) = [] :=
  claim9_falsy_coordinates_skip.1 (fun _ _ => some "z") (some 0) (some 5)
    (Or.inl (by decide))

/-- C10: a record can carry the sentinel address together with accepted
coordinates — produced when only the title-based fallback query succeeded —
and on such a record (no postal code yet, truthy coordinates) the
enrichment pass appends the found postal code to the sentinel string. -/
theorem claim10_sentinel_with_coordinates
    (svc : String → Option (ℚ × ℚ)) (rg : ℚ → ℚ → Option String)
    (t url : String) (image description : Option String)
    (la lo : ℚ) (z : String)
    (ht : t ≠ "") (hsvc : svc t = some (la, lo)) (hla : la ≠ 0) (hlo : lo ≠ 0)
    (hrg : rg la lo = some z) (hz : z ≠ "") :
    ∃ r : Property,
      scrapeRecord svc (some t) url image description none = some r ∧
        r.address = "Address Not Found" ∧ r.lat = some la ∧ r.lon = some lo ∧
        r.zip_code = none ∧
        (enrichStep rg r).address = "Address Not Found " ++ z ∧
        (enrichStep rg r).zip_code = some z := by
  have hquery : scrapeQuery (some t) none = some ("Address Not Found", t) := rfl
  have hcoords : scrapeCoords svc t none (jsTruthyStr none) =
      (some la, some lo) := by
    rw [scrapeCoords, if_pos ht]
    simp [scrapeGeo, hsvc, jsTruthyNum, jsTruthyStr]
  refine ⟨⟨some t, url, image, description, "Address Not Found", none,
      some la, some lo, none⟩, ?_, rfl, rfl, rfl, rfl, ?_, ?_⟩
  · simp only [scrapeRecord, hquery]
    rw [hcoords]
  all_goals {
    have hla2 : jsTruthyNum (some la) = true := by simp [jsTruthyNum, hla]
    have hlo2 : jsTruthyNum (some lo) = true := by simp [jsTruthyNum, hlo]
    have hrev : reverseGeocode rg (some la) (some lo) = some z := by
      rw [reverseGeocode]
      simp [hla2, hlo2, hrg, hz]
    rw [enrichStep]
    simp only [jsTruthyStr, hla2, hlo2]
    rw [if_pos (by simp [jsTruthyStr]), if_pos (by simp [hrev, jsTruthyStr, hz])]
    simp [hrev]
  }

/-- Witness for C10 on concrete inputs. -/
theorem claim10_witness :
    ∃ r : Property,
      scrapeRecord (fun _ => some ((42 : ℚ), (-83 : ℚ)))
          (some "The Meadows at Canton") "u" none none none = some r ∧
        r.address = "Address Not Found" ∧ r.lat = some 42 ∧ r.lon = some (-83) ∧
        r.zip_code = none ∧
        (enrichStep (fun _ _ => some "48188") r).address =
          "Address Not Found " ++ "48188" ∧
        (enrichStep (fun _ _ => some "48188") r).zip_code = some "48188" :=
  claim10_sentinel_with_coordinates (fun _ => some ((42 : ℚ), (-83 : ℚ)))
    (fun _ _ => some "48188") "The Meadows at Canton" "u" none none
    42 (-83) "48188" (by decide) rfl (by decide) (by decide) rfl (by decide)
